import Mathlib

/-!
# Verification of the simpler-whisper streaming orchestration layer

Shallow embedding of `src/whisper_wrapper.cpp` (AsyncWhisperModel /
ThreadedWhisperModel and the free function `trim`).  Audio samples are
`float` in the source; no verified property depends on sample values, only
on counts and ordering, so the sample type is a type parameter `α`.
Strings are modelled as `List Char`.  The whisper inference engine is an
external collaborator; an engine call is modelled as a function
`List α → Except Unit (List WhisperSegment)` where `Except.error`
stands for a thrown C++ exception and `Except.ok` for a normal return.
-/

namespace SimplerWhisper

/-- Token produced by the engine (`struct WhisperToken`).  The
probability field `p` is a C++ `float` that is passed through unread and
unmodified and no claim touches it, so it is omitted here; the remaining
fields are kept. -/
structure WhisperToken where
  id : Int
  t0 : Int
  t1 : Int
  text : List Char
  deriving Repr, DecidableEq

/-- Segment produced by the engine (`struct WhisperSegment`). -/
structure WhisperSegment where
  text : List Char
  start : Int
  «end» : Int
  tokens : List WhisperToken
  deriving Repr, DecidableEq

/-- An enqueued audio chunk (`struct AudioChunk`): copied samples plus the
id assigned at enqueue time (`size_t id`). -/
structure AudioChunk (α : Type) where
  data : List α
  id : Nat
  deriving Repr, DecidableEq

/-- A produced result (`struct TranscriptionResult`). -/
structure TranscriptionResult where
  chunk_id : Nat
  is_partial : Bool
  segments : List WhisperSegment
  deriving Repr, DecidableEq

/-- The whitespace set used by `trim`: `" \t\n\r"`. -/
def isWhitespaceChar (c : Char) : Bool :=
  c = ' ' || c = '\t' || c = '\n' || c = '\r'

/-- The free function `trim` (`std::string trim(const std::string&)`): drop the
characters before `find_first_not_of(" \t\n\r")` and after
`find_last_not_of(" \t\n\r")`; an all-whitespace or empty string maps to
`""`.  On lists this is: drop the whitespace prefix and the whitespace
suffix. -/
def trim (s : List Char) : List Char :=
  ((s.dropWhile isWhitespaceChar).reverse.dropWhile isWhitespaceChar).reverse

/-- In-order concatenation of the segment texts of a result
(the `full_text +=` loop in `resultThread`). -/
def concatTexts (segs : List WhisperSegment) : List Char :=
  (segs.map (·.text)).flatten

/-- One callback invocation made by the delivery loop: the arguments
passed to `result_callback`. -/
structure Delivery where
  chunk_id : Nat
  segments : List WhisperSegment
  is_partial : Bool
  deriving Repr, DecidableEq

/-- The per-batch body of `AsyncWhisperModel::resultThread` (lines
331–364): for each drained result, skip it when its segment list is empty,
otherwise concatenate the segment texts, trim, skip when the trimmed text
is empty, and otherwise invoke the callback with
`(chunk_id, segments, is_partial)`.  A callback exception is caught and
logged, so the invocation still happens and the loop proceeds; the list of
`Delivery` values is exactly the list of callback invocations. -/
def deliverBatch (results : List TranscriptionResult) : List Delivery :=
  results.filterMap fun r =>
    if r.segments.isEmpty then none
    else
      let full_text := trim (concatTexts r.segments)
      if full_text.isEmpty then none
      else some ⟨r.chunk_id, r.segments, TranscriptionResult.is_partial r⟩

/-- Function `trim` returns the empty string exactly on empty or all-whitespace
input. -/
theorem trim_eq_nil_iff (s : List Char) :
    trim s = [] ↔ s.all isWhitespaceChar = true := by
  unfold trim
  rw [List.reverse_eq_nil_iff, List.dropWhile_eq_nil_iff, List.all_eq_true]
  constructor
  · intro h c hc
    have hc' : c ∈ s.takeWhile isWhitespaceChar ++ s.dropWhile isWhitespaceChar := by
      rw [List.takeWhile_append_dropWhile]; exact hc
    rcases List.mem_append.mp hc' with h1 | h1
    · exact List.mem_takeWhile_imp h1
    · exact h c (List.mem_reverse.mpr h1)
  · intro h c hc
    have h1 : c ∈ s.dropWhile isWhitespaceChar := List.mem_reverse.mp hc
    have h2 : c ∈ s := by
      rw [← List.takeWhile_append_dropWhile (p := isWhitespaceChar) (l := s)]
      exact List.mem_append_right _ h1
    exact h c h2

/-- The mutable state of an `AsyncWhisperModel` / `ThreadedWhisperModel`
instance that the verified operations touch: the running flag, the two
chunk-id fields, the two queues, and (for the threaded subclass) the
accumulation buffer and the `max_samples` threshold.  Locks and condition
variables serialize access in the source; here the operations are applied
as atomic steps on this state. -/
structure ModelState (α : Type) where
  running : Bool
  next_chunk_id : Nat
  current_chunk_id : Nat
  input_queue : List (AudioChunk α)
  result_queue : List TranscriptionResult
  accumulated_buffer : List α
  max_samples : Nat
  deriving Repr, DecidableEq

/-- Constructors: `AsyncWhisperModel::AsyncWhisperModel` sets `running(false)`,
`next_chunk_id(0)`, `current_chunk_id(0)`; queues and (in the subclass)
the accumulation buffer start empty.  `ThreadedWhisperModel`'s constructor
additionally sets `max_samples = static_cast<size_t>(max_duration_sec *
sample_rate)`; the C++ `float` duration is modelled as a rational. -/
def mkThreadedWhisperModel (α : Type) (max_duration_sec : ℚ) (sample_rate : Nat) :
    ModelState α :=
  { running := false
    next_chunk_id := 0
    current_chunk_id := 0
    input_queue := []
    result_queue := []
    accumulated_buffer := []
    max_samples := (⌊max_duration_sec * sample_rate⌋).toNat }

/-- Method `ThreadedWhisperModel::setMaxDuration`. -/
def setMaxDuration (max_duration_sec : ℚ) (sample_rate : Nat) (s : ModelState α) :
    ModelState α :=
  { s with max_samples := (⌊max_duration_sec * sample_rate⌋).toNat }

/-- Method `AsyncWhisperModel::queueAudio` (exposed to Python as `queue_audio`):
copies the samples into a chunk, assigns `chunk.id = next_chunk_id++`,
pushes the chunk onto the input queue, notifies the consumer, and returns
the chunk's id.  Note: no empty-input check is performed here. -/
def queueAudio (audio : List α) (s : ModelState α) : Nat × ModelState α :=
  let chunk : AudioChunk α := { data := audio, id := s.next_chunk_id }
  (chunk.id,
   { s with
     next_chunk_id := s.next_chunk_id + 1
     input_queue := s.input_queue ++ [chunk] })

/-- Method `AsyncWhisperModel::transcribe`: returns 0 without queueing when the
input is empty (`audio.is_none() || audio.size() == 0`), otherwise
delegates to `queueAudio`. -/
def transcribe (audio : List α) (s : ModelState α) : Nat × ModelState α :=
  if audio.isEmpty then (0, s) else queueAudio audio s

/-- A sequence of `queueAudio` calls, returning the list of ids handed
back to the caller together with the final state. -/
def runQueueAudio : List (List α) → ModelState α → List Nat × ModelState α
  | [], s => ([], s)
  | audio :: rest, s =>
    let (id, s') := queueAudio audio s
    let (ids, s'') := runQueueAudio rest s'
    (id :: ids, s'')

/-- The consecutive ids `start, start+1, ..., start+n-1` (specification
helper for stating what the id counter hands out). -/
def idsFrom (start : Nat) : Nat → List Nat
  | 0 => []
  | n + 1 => start :: idsFrom (start + 1) n

/-- An inference engine call (`WhisperModel::transcribe_raw_audio`):
either returns the segment list or throws, modelled as `Except.error`.
The thrown exception's message is only ever logged, so the error carries
no data here. -/
def Engine (α : Type) : Type := List α → Except Unit (List WhisperSegment)

/-- Method `ThreadedWhisperModel::processAccumulatedAudio` (lines 427–482).
Returns the new state together with the result pushed onto the result
queue (`none` when the pass pushes nothing):
* return immediately when the buffer is empty or shorter than the
  hard-coded 16000-sample minimum;
* snapshot the buffer and `current_chunk_id`;
* clear the buffer when `force_final` or the buffer reached
  `max_samples`;
* run inference; a thrown exception is caught and logged, leaving the
  segment vector empty;
* when the segment list is empty, push nothing; otherwise push a result
  whose `is_partial` is `!(force_final || process_buffer.size() >=
  max_samples)`. -/
def processAccumulatedAudio (engine : Engine α) (force_final : Bool)
    (s : ModelState α) : ModelState α × Option TranscriptionResult :=
  if s.accumulated_buffer.length = 0 ∨ s.accumulated_buffer.length < 16000 then
    (s, none)
  else
    let process_buffer := s.accumulated_buffer
    let current_id := s.current_chunk_id
    let s1 :=
      if force_final ∨ s.accumulated_buffer.length ≥ s.max_samples then
        { s with accumulated_buffer := [] }
      else s
    let segments :=
      match engine process_buffer with
      | .ok segs => segs
      | .error _ => []
    if segments.isEmpty then (s1, none)
    else
      let result : TranscriptionResult :=
        { chunk_id := current_id
          is_partial := !(force_final || decide (process_buffer.length ≥ s.max_samples))
          segments := segments }
      ({ s1 with result_queue := s1.result_queue ++ [result] }, some result)

/-- The drain loop of `ThreadedWhisperModel::processThread` (lines
506–514): pop every queued chunk, appending its samples to
`all_chunks.data` and overwriting `all_chunks.id` with the popped chunk's
id.  `acc`/`accId` are the fields of `all_chunks` so far (`accId` plays
the role of the default-constructed, indeterminate initial `id`, which the
source never reads unless a chunk was popped). -/
def drainLoop : List (AudioChunk α) → List α → Nat → List α × Nat
  | [], acc, accId => (acc, accId)
  | c :: rest, acc, _ => drainLoop rest (acc ++ c.data) c.id

/-- The buffer-update step of `ThreadedWhisperModel::processThread` (lines
517–528): when at least one chunk was drained, append the combined
samples to the accumulation buffer and set `current_chunk_id` to
`all_chunks.id` (the id of the last drained chunk). -/
def workerDrain (s : ModelState α) : ModelState α :=
  if s.input_queue.isEmpty then s
  else
    let drained := drainLoop s.input_queue [] 0
    { s with
      input_queue := []
      accumulated_buffer := s.accumulated_buffer ++ drained.1
      current_chunk_id := drained.2 }

/-- One non-shutdown iteration of `ThreadedWhisperModel::processThread`:
drain all queued chunks into the buffer and, when anything was drained,
run `processAccumulatedAudio` with `force_final = false`.  (The condition
wait guarantees the queue is non-empty when `running` still holds; an
empty queue therefore produces the no-op branch.) -/
def workerIteration (engine : Engine α) (s : ModelState α) :
    ModelState α × Option TranscriptionResult :=
  if s.input_queue.isEmpty then (s, none)
  else processAccumulatedAudio engine false (workerDrain s)

/-- The atomic steps that touch the accumulation buffer over a run of the
threaded model: a producer enqueue, a worker drain-and-process iteration,
the forced-final pass run on shutdown (`processAccumulatedAudio(model,
true)` at line 502), and the unconditional buffer clear performed at the
end of `ThreadedWhisperModel::stop` (lines 420–423). -/
inductive WorkerOp (α : Type) where
  | enqueue (audio : List α)
  | iterate
  | flushFinal
  | stopClear
  deriving DecidableEq

/-- Apply one `WorkerOp`, returning the new state and the result (if any)
pushed by that step. -/
def applyOp (engine : Engine α) : WorkerOp α → ModelState α →
    ModelState α × Option TranscriptionResult
  | .enqueue audio, s => ((queueAudio audio s).2, none)
  | .iterate, s => workerIteration engine s
  | .flushFinal, s => processAccumulatedAudio engine true s
  | .stopClear, s => ({ s with accumulated_buffer := [] }, none)

/-- Run a list of worker-visible steps, collecting every pushed result in
order. -/
def runWorkerSteps (engine : Engine α) :
    List (WorkerOp α) → ModelState α → ModelState α × List TranscriptionResult
  | [], s => (s, [])
  | op :: rest, s =>
    let step := applyOp engine op s
    let next := runWorkerSteps engine rest step.1
    (next.1, step.2.toList ++ next.2)

/-- Construction (`WhisperModel::WhisperModel`) followed by the worker loop: the model is
constructed at the top of `processThread`; a construction failure
(`whisper_init_from_file_with_params` returning null makes the
constructor throw) prevents any iteration from running, while a
successful construction runs the whole loop. -/
def runWorker (ctor : Except Unit (Engine α)) (ops : List (WorkerOp α))
    (s : ModelState α) : Except Unit (ModelState α × List TranscriptionResult) :=
  match ctor with
  | .error e => .error e
  | .ok engine => .ok (runWorkerSteps engine ops s)

/-- Modelled from the spec: the "minimum-emit threshold", described as "a
fixed one-second-equivalent sample count" "derived from a configured
sample rate" (§4.2).  One second of audio at `sample_rate` samples per
second.  The source itself hard-codes the constant 16000 instead; this
definition exists only to compare the spec's description with the code. -/
def specMinEmitThreshold (sample_rate : Nat) : Nat := sample_rate

/-! ## The delivery loop as an interleaved state machine

`AsyncWhisperModel::resultThread` runs concurrently with the worker
thread and with `stop()`.  Its control flow is modelled as a program
counter; the worker's result pushes and `stop()`'s `running = false`
assignment are environment actions that can interleave at any point,
exactly as the source permits (the `running` flag is a `std::atomic`
read without the result lock, and `cv.wait_for` has a bounded timeout so
it can return at any time regardless of the predicate). -/

/-- Program counter of the delivery loop body:
`whileCheck` = the `while (running)` test at line 310;
`waiting` = inside `result_cv.wait_for`;
`breakCheck` = the `if (!running && result_queue.empty()) break;` test
followed, when not taken, by the drain of the whole queue;
`deliver` = the callback batch outside the lock. -/
inductive DeliveryPc where
  | whileCheck
  | waiting
  | breakCheck
  | deliver
  deriving Repr, DecidableEq

/-- How the delivery loop terminated: at the top-of-loop `while (running)`
test, or through the explicit `break`. -/
inductive ExitPath where
  | whileExit
  | breakExit
  deriving Repr, DecidableEq

/-- State visible to the delivery loop: the shared `running` flag, the
shared result queue, the local drained batch (`results`), the callback
invocations made so far, the program counter, how (if at all) the loop
has exited, and a snapshot of the result queue taken at the instant of
exit. -/
structure DeliveryState where
  running : Bool
  resultQueue : List TranscriptionResult
  pending : List TranscriptionResult
  delivered : List Delivery
  pc : DeliveryPc
  exited : Option ExitPath
  queueAtExit : List TranscriptionResult
  deriving Repr, DecidableEq

/-- The delivery thread's state when `start()` spawns it: at the top of
the `while`, nothing drained, nothing delivered, `running = true`. -/
def deliveryInit : DeliveryState :=
  { running := true
    resultQueue := []
    pending := []
    delivered := []
    pc := .whileCheck
    exited := none
    queueAtExit := [] }

/-- One step of the delivery thread (`resultThread`, lines 308–367).  At
`whileCheck` the loop exits when `running` is false; at `waiting` the
`wait_for` returns (notification or timeout); at `breakCheck` the loop
breaks when `!running && result_queue.empty()`, and otherwise drains the
entire queue into the local batch; at `deliver` the batch is filtered and
delivered (`deliverBatch`) and control returns to the `while` test.  A
step after exit changes nothing. -/
def deliveryStep (s : DeliveryState) : DeliveryState :=
  if s.exited.isSome then s
  else
    match s.pc with
    | .whileCheck =>
        if s.running then { s with pc := .waiting }
        else { s with exited := some .whileExit, queueAtExit := s.resultQueue }
    | .waiting => { s with pc := .breakCheck }
    | .breakCheck =>
        if !s.running && s.resultQueue.isEmpty then
          { s with exited := some .breakExit, queueAtExit := s.resultQueue }
        else
          { s with pending := s.resultQueue, resultQueue := [], pc := .deliver }
    | .deliver =>
        { s with
          delivered := s.delivered ++ deliverBatch s.pending
          pending := []
          pc := .whileCheck }

/-- An event in the interleaved run: a delivery-thread step, a result
pushed by the worker thread (in particular the forced-flush result pushed
during shutdown), or `stop()` clearing the `running` flag. -/
inductive DeliveryAction where
  | dstep
  | push (r : TranscriptionResult)
  | stop
  deriving Repr, DecidableEq

/-- Run a schedule of interleaved events from a given state. -/
def deliveryRun : List DeliveryAction → DeliveryState → DeliveryState
  | [], s => s
  | a :: rest, s =>
    deliveryRun rest
      (match a with
       | .dstep => deliveryStep s
       | .push r => { s with resultQueue := s.resultQueue ++ [r] }
       | .stop => { s with running := false })

/-! ## Concrete instances used by witnesses and counterexamples -/

/-- A concrete segment with visible text. -/
def segHi : WhisperSegment := { text := ['h', 'i'], start := 0, «end» := 1, tokens := [] }

/-- A concrete segment whose text is whitespace only. -/
def segWs : WhisperSegment := { text := [' ', '\t'], start := 0, «end» := 1, tokens := [] }

/-- An engine call that always succeeds with one segment. -/
def engineOk1 : Engine Int := fun _ => .ok [segHi]

/-- An engine call that always throws. -/
def engineFail : Engine Int := fun _ => .error ()

/-- A result standing for the forced flush pushed by the worker during
shutdown. -/
def flushResult : TranscriptionResult :=
  { chunk_id := 3, is_partial := false, segments := [segHi] }

/-- A threaded-model state with 20000 accumulated samples on an instance
constructed with `sample_rate = 32000` (so `max_samples = 10 * 32000`). -/
def c3State : ModelState Int :=
  { running := true
    next_chunk_id := 1
    current_chunk_id := 0
    input_queue := []
    result_queue := []
    accumulated_buffer := List.replicate 20000 0
    max_samples := (mkThreadedWhisperModel Int 10 32000).max_samples }

/-- A threaded-model state with a three-sample accumulated buffer. -/
def c3small : ModelState Int :=
  { running := true
    next_chunk_id := 1
    current_chunk_id := 0
    input_queue := []
    result_queue := []
    accumulated_buffer := [1, 2, 3]
    max_samples := 160000 }

/-- A threaded-model state whose buffer holds exactly 16000 samples. -/
def c4s : ModelState Int :=
  { running := true
    next_chunk_id := 1
    current_chunk_id := 0
    input_queue := []
    result_queue := []
    accumulated_buffer := List.replicate 16000 0
    max_samples := 160000 }

/-- The result `processAccumulatedAudio engineOk1 true c4s` pushes. -/
def c4r : TranscriptionResult := { chunk_id := 0, is_partial := false, segments := [segHi] }

/-- The state `processAccumulatedAudio engineOk1 true c4s` returns. -/
def c4s' : ModelState Int := { c4s with accumulated_buffer := [], result_queue := [c4r] }

/-- A threaded-model state with two chunks waiting in the input queue. -/
def c7s : ModelState Int :=
  { running := true
    next_chunk_id := 8
    current_chunk_id := 2
    input_queue := [{ data := [10, 11], id := 5 }, { data := [12], id := 7 }]
    result_queue := []
    accumulated_buffer := [9]
    max_samples := 160000 }

/-- A threaded-model state whose single queued chunk holds 16000 samples,
so that draining it lets the pass produce a result. -/
def c7p : ModelState Int :=
  { running := true
    next_chunk_id := 6
    current_chunk_id := 2
    input_queue := [{ data := List.replicate 16000 0, id := 5 }]
    result_queue := []
    accumulated_buffer := []
    max_samples := 160000 }

/-- The result the worker iteration on `c7p` pushes. -/
def c7res : TranscriptionResult := { chunk_id := 5, is_partial := true, segments := [segHi] }

/-- A result whose only segment is whitespace text (skipped by the
delivery loop). -/
def badResult : TranscriptionResult := { chunk_id := 0, is_partial := true, segments := [segWs] }

/-- A result with visible text (delivered). -/
def goodResult : TranscriptionResult := { chunk_id := 1, is_partial := false, segments := [segHi] }

/-- The callback invocation produced for `goodResult`. -/
def goodDelivery : Delivery := { chunk_id := 1, segments := [segHi], is_partial := false }

/-- A threaded-model state with a 16000-sample buffer, `max_samples =
16000`, and one queued one-sample chunk, so the next worker iteration
drains a window that reaches the max threshold and clears the buffer. -/
def c5it : ModelState Int :=
  { running := true
    next_chunk_id := 8
    current_chunk_id := 2
    input_queue := [{ data := [1], id := 7 }]
    result_queue := []
    accumulated_buffer := List.replicate 16000 0
    max_samples := 16000 }

/-- The final result the worker iteration on `c5it` pushes. -/
def c5res : TranscriptionResult := { chunk_id := 7, is_partial := false, segments := [segHi] }

/-! ## Helper lemmas -/

/-- A `ThreadedWhisperModel` constructed with `max_duration_sec = 10` and
`sample_rate = 32000` has `max_samples = 320000`. -/
theorem mk_32000_max_samples :
    (mkThreadedWhisperModel Int 10 32000).max_samples = 320000 := by
  unfold mkThreadedWhisperModel
  norm_num
  decide

/-- The ids handed out by a run of `queueAudio` calls are consecutive from
the starting counter value, and the counter advances by exactly the number
of calls. -/
theorem runQueueAudio_ids (audios : List (List α)) (s : ModelState α) :
    (runQueueAudio audios s).1 = idsFrom s.next_chunk_id audios.length ∧
      (runQueueAudio audios s).2.next_chunk_id = s.next_chunk_id + audios.length := by
  induction audios generalizing s with
  | nil => exact ⟨rfl, rfl⟩
  | cons a rest ih =>
    have h := ih (queueAudio a s).2
    refine ⟨?_, ?_⟩
    · simp only [runQueueAudio, idsFrom, List.length_cons]
      exact congrArg (s.next_chunk_id :: ·) h.1
    · simp only [runQueueAudio]
      rw [h.2]
      simp [queueAudio]
      omega

/-! ## Claims -/

/-- C2: the claim says a `queue_audio` call with a zero-length array is a
no-op returning sentinel 0.  On the code, `queue_audio` is bound to
`AsyncWhisperModel::queueAudio`, which performs no empty-input check: an
empty call on a fresh instance enqueues an empty chunk, increments the
chunk counter to 1, and a second empty call returns id 1, not the
sentinel. -/
theorem C2_counterexample :
    (queueAudio ([] : List Int) (mkThreadedWhisperModel Int 10 16000)).2.next_chunk_id = 1 ∧
    (queueAudio ([] : List Int) (mkThreadedWhisperModel Int 10 16000)).2.input_queue =
      [{ data := [], id := 0 }] ∧
    (queueAudio ([] : List Int)
      (queueAudio ([] : List Int) (mkThreadedWhisperModel Int 10 16000)).2).1 = 1 :=
  ⟨rfl, rfl, rfl⟩

/-- C2 (amended): `transcribe` with an empty samples array is a no-op that
returns the sentinel 0 and leaves the state untouched; `queueAudio`
itself checks nothing — called with an empty array it enqueues an empty
chunk, increments the chunk counter, and returns that chunk's id. -/
theorem C2_empty_input (s : ModelState α) :
    transcribe ([] : List α) s = (0, s) ∧
    (queueAudio ([] : List α) s).1 = s.next_chunk_id ∧
    (queueAudio ([] : List α) s).2 =
      { s with
        next_chunk_id := s.next_chunk_id + 1
        input_queue := s.input_queue ++ [{ data := [], id := s.next_chunk_id }] } :=
  ⟨rfl, rfl, rfl⟩

/-- C9: the claim says ids of successive non-empty enqueues form
`0, 1, 2, ...`.  Counterexample: the call sequence `queue_audio [1]`,
`queue_audio []`, `queue_audio [2]` on a fresh instance hands the empty
call an id too, so the two non-empty enqueues receive ids `[0, 2]`, not
the consecutive `idsFrom 0 2 = [0, 1]`. -/
theorem C9_counterexample :
    ((([[(1 : Int)], [], [(2 : Int)]].zip
          (runQueueAudio [[(1 : Int)], [], [(2 : Int)]]
            (mkThreadedWhisperModel Int 10 16000)).1).filter
        (fun p => !p.1.isEmpty)).map Prod.snd) = [0, 2] ∧
      ([0, 2] ≠ idsFrom 0 2) :=
  ⟨rfl, by decide⟩

/-- C9 (amended): every `queueAudio` call — empty or not — consumes
exactly one id, and the ids over all `queueAudio` calls on a fresh
instance form the strictly increasing sequence `0, 1, 2, ...`; empty
calls routed through `transcribe` consume no id.  Non-empty enqueues
receive the consecutive ids only when no empty-input `queue_audio` call
intervenes. -/
theorem C9_ids (audios : List (List α)) (s : ModelState α) :
    (runQueueAudio audios s).1 = idsFrom s.next_chunk_id audios.length ∧
    (runQueueAudio audios s).2.next_chunk_id = s.next_chunk_id + audios.length ∧
    transcribe ([] : List α) s = (0, s) :=
  ⟨(runQueueAudio_ids audios s).1, (runQueueAudio_ids audios s).2, rfl⟩

/-- C10: the sentinel 0 returned by `transcribe` for empty input is the
same value as the id assigned to the instance's first successfully
enqueued chunk, and only the state distinguishes the two calls. -/
theorem C10_sentinel_collision (audio : List α) (s : ModelState α)
    (hne : audio ≠ []) (h0 : s.next_chunk_id = 0) :
    (transcribe ([] : List α) s).1 = 0 ∧
    (transcribe audio s).1 = 0 ∧
    (transcribe ([] : List α) s).2 = s ∧
    (transcribe audio s).2.input_queue = s.input_queue ++ [{ data := audio, id := 0 }] := by
  have hne' : audio.isEmpty = false := by
    simpa [List.isEmpty_iff] using hne
  refine ⟨rfl, ?_, rfl, ?_⟩
  · simp [transcribe, queueAudio, hne', h0]
  · simp [transcribe, queueAudio, hne', h0]

/-- Witness for C10 at a fresh instance and the one-sample input `[1]`. -/
theorem C10_sentinel_collision_witness :
    (transcribe ([] : List Int) (mkThreadedWhisperModel Int 10 16000)).1 = 0 ∧
    (transcribe [(1 : Int)] (mkThreadedWhisperModel Int 10 16000)).1 = 0 ∧
    (transcribe ([] : List Int) (mkThreadedWhisperModel Int 10 16000)).2 =
      mkThreadedWhisperModel Int 10 16000 ∧
    (transcribe [(1 : Int)] (mkThreadedWhisperModel Int 10 16000)).2.input_queue =
      (mkThreadedWhisperModel Int 10 16000).input_queue ++ [{ data := [1], id := 0 }] :=
  C10_sentinel_collision [(1 : Int)] (mkThreadedWhisperModel Int 10 16000)
    (by decide) rfl

/-- A processing pass on a buffer below the 16000-sample minimum is a
no-op: state unchanged, nothing pushed. -/
theorem processAccumulatedAudio_below (engine : Engine α) (force : Bool)
    (s : ModelState α) (h : s.accumulated_buffer.length < 16000) :
    processAccumulatedAudio engine force s = (s, none) := by
  unfold processAccumulatedAudio
  rw [if_pos (Or.inr h)]

/-- A processing pass either leaves the accumulation buffer untouched or
clears it, and it clears only when the pass is final-flagged (forced, or
buffer at `max_samples`). -/
theorem processAccumulatedAudio_buffer (engine : Engine α) (force : Bool)
    (s : ModelState α) :
    (processAccumulatedAudio engine force s).1.accumulated_buffer = s.accumulated_buffer ∨
      ((processAccumulatedAudio engine force s).1.accumulated_buffer = [] ∧
        (force = true ∨ s.max_samples ≤ s.accumulated_buffer.length)) := by
  unfold processAccumulatedAudio
  by_cases h0 : s.accumulated_buffer.length = 0 ∨ s.accumulated_buffer.length < 16000
  · rw [if_pos h0]
    exact Or.inl rfl
  · rw [if_neg h0]
    by_cases hc : (force : Prop) ∨ s.accumulated_buffer.length ≥ s.max_samples
    · by_cases hseg : (match engine s.accumulated_buffer with
        | .ok segs => segs
        | .error _ => []).isEmpty
      · refine Or.inr ⟨?_, ?_⟩
        · simp only [if_pos hc, if_pos hseg]
        · rcases hc with hc | hc
          · exact Or.inl hc
          · exact Or.inr hc
      · refine Or.inr ⟨?_, ?_⟩
        · simp only [if_pos hc, if_neg hseg]
        · rcases hc with hc | hc
          · exact Or.inl hc
          · exact Or.inr hc
    · by_cases hseg : (match engine s.accumulated_buffer with
        | .ok segs => segs
        | .error _ => []).isEmpty
      · simp only [if_neg hc, if_pos hseg]
        exact Or.inl trivial
      · simp only [if_neg hc, if_neg hseg]
        exact Or.inl trivial

/-- When a processing pass pushes a result, the result carries the
buffer's owning chunk id, its partial flag is the negation of the
final-flag condition, and the buffer held at least the 16000-sample
minimum. -/
theorem processAccumulatedAudio_push (engine : Engine α) (force : Bool)
    (s : ModelState α) (res : TranscriptionResult)
    (h : (processAccumulatedAudio engine force s).2 = some res) :
    res.chunk_id = s.current_chunk_id ∧
    TranscriptionResult.is_partial res
      = !(force || decide (s.accumulated_buffer.length ≥ s.max_samples)) ∧
    16000 ≤ s.accumulated_buffer.length := by
  unfold processAccumulatedAudio at h
  by_cases h0 : s.accumulated_buffer.length = 0 ∨ s.accumulated_buffer.length < 16000
  · rw [if_pos h0] at h
    cases h
  · rw [if_neg h0] at h
    by_cases hseg : (match engine s.accumulated_buffer with
      | .ok segs => segs
      | .error _ => []).isEmpty
    · simp only [if_pos hseg] at h
      cases h
    · simp only [if_neg hseg] at h
      cases h
      refine ⟨rfl, rfl, by omega⟩

/-- The combined data accumulated by the drain loop is the FIFO
concatenation of the queued chunks' samples. -/
theorem drainLoop_data (l : List (AudioChunk α)) (acc : List α) (accId : Nat) :
    (drainLoop l acc accId).1 = acc ++ (l.map AudioChunk.data).flatten := by
  induction l generalizing acc accId with
  | nil => simp [drainLoop]
  | cons c rest ih =>
    rw [drainLoop, ih]
    simp

/-- The id left in the drain loop's accumulator is the id of the last
drained chunk. -/
theorem drainLoop_last (l : List (AudioChunk α)) (c : AudioChunk α)
    (acc : List α) (accId : Nat) (h : l.getLast? = some c) :
    (drainLoop l acc accId).2 = c.id := by
  induction l generalizing acc accId with
  | nil => cases h
  | cons a rest ih =>
    cases rest with
    | nil =>
      simp only [List.getLast?_singleton, Option.some_inj] at h
      rw [← h]
      rfl
    | cons b t =>
      rw [drainLoop]
      exact ih _ _ (by rwa [List.getLast?_cons_cons] at h)

/-- With an engine whose every call throws, no `WorkerOp` pushes a
result. -/
theorem applyOp_error_none (op : WorkerOp α) (s : ModelState α) :
    (applyOp (fun _ => Except.error ()) op s).2 = none := by
  cases op with
  | enqueue audio => rfl
  | iterate =>
    show (workerIteration _ s).2 = none
    unfold workerIteration
    by_cases hq : s.input_queue.isEmpty
    · simp [hq]
    · rw [if_neg hq]
      unfold processAccumulatedAudio
      by_cases h0 : (workerDrain s).accumulated_buffer.length = 0 ∨
          (workerDrain s).accumulated_buffer.length < 16000
      · rw [if_pos h0]
      · rw [if_neg h0]
        simp
  | flushFinal =>
    show (processAccumulatedAudio _ true s).2 = none
    unfold processAccumulatedAudio
    by_cases h0 : s.accumulated_buffer.length = 0 ∨ s.accumulated_buffer.length < 16000
    · rw [if_pos h0]
    · rw [if_neg h0]
      simp
  | stopClear => rfl

/-- C3: the claim says the minimum-emit threshold is a one-second sample
count derived from the configured sample rate.  Counterexample: on an
instance configured with `sample_rate = 32000` the spec-derived threshold
is 32000, yet a pass over a 20000-sample buffer — below that threshold —
still runs inference and pushes a (partial) result, because the source
hard-codes the constant 16000. -/
theorem C3_counterexample :
    c3State.accumulated_buffer.length < specMinEmitThreshold 32000 ∧
    (processAccumulatedAudio engineOk1 false c3State).2 =
      some { chunk_id := 0, is_partial := true, segments := [segHi] } := by
  have hlen : c3State.accumulated_buffer.length = 20000 := by
    show (List.replicate 20000 (0 : Int)).length = 20000
    rw [List.length_replicate]
  constructor
  · rw [hlen]
    decide
  · have hmax : c3State.max_samples = 320000 := mk_32000_max_samples
    unfold processAccumulatedAudio
    rw [if_neg (by rw [hlen]; decide)]
    simp only [engineOk1, hlen, hmax]
    decide

/-- C3 (amended): the minimum-emit threshold is the fixed constant 16000
samples (one second at 16 kHz only), independent of the configured sample
rate; below it a pass — forced or not — runs no inference and pushes no
result, so sub-minimum residual audio is dropped at shutdown. -/
theorem C3_min_emit (engine : Engine α) (force : Bool) (s : ModelState α)
    (h : s.accumulated_buffer.length < 16000) :
    processAccumulatedAudio engine force s = (s, none) :=
  processAccumulatedAudio_below engine force s h

/-- Witness for C3 (amended): a forced pass over a three-sample buffer is
a no-op. -/
theorem C3_min_emit_witness :
    processAccumulatedAudio engineOk1 true c3small = (c3small, none) :=
  C3_min_emit engineOk1 true c3small (by decide)

/-- A non-empty drain appends the FIFO concatenation of all queued
chunks' samples to the accumulation buffer. -/
theorem workerDrain_buffer (s : ModelState α) (hq : s.input_queue.isEmpty = false) :
    (workerDrain s).accumulated_buffer
      = s.accumulated_buffer ++ (s.input_queue.map AudioChunk.data).flatten := by
  unfold workerDrain
  rw [if_neg (by rw [hq]; exact Bool.false_ne_true)]
  show s.accumulated_buffer ++ (drainLoop s.input_queue [] 0).1 = _
  rw [drainLoop_data, List.nil_append]

/-- A drain never changes the `max_samples` threshold. -/
theorem workerDrain_max (s : ModelState α) :
    (workerDrain s).max_samples = s.max_samples := by
  unfold workerDrain
  split
  · rfl
  · rfl

/-- C4: a result pushed by `processAccumulatedAudio` has `is_partial =
false` exactly when the processed window reached `max_samples` or the
pass was the forced shutdown flush (which only pushes at all when the
buffer held at least the 16000-sample minimum). -/
theorem C4_is_partial (engine : Engine α) (force : Bool) (s : ModelState α)
    (res : TranscriptionResult)
    (h : (processAccumulatedAudio engine force s).2 = some res) :
    TranscriptionResult.is_partial res = false ↔
      s.accumulated_buffer.length ≥ s.max_samples ∨
        (force = true ∧ 16000 ≤ s.accumulated_buffer.length) := by
  obtain ⟨-, hpart, hmin⟩ := processAccumulatedAudio_push engine force s res h
  rw [hpart]
  cases force with
  | false => simp
  | true => simp [hmin]

/-- Witness for C4: the forced flush of a 16000-sample buffer (below the
160000-sample max window) pushes a result with `is_partial = false`. -/
theorem C4_is_partial_witness :
    TranscriptionResult.is_partial c4r = false ↔
      c4s.accumulated_buffer.length ≥ c4s.max_samples ∨
        (true = true ∧ 16000 ≤ c4s.accumulated_buffer.length) :=
  C4_is_partial engineOk1 true c4s c4r (by
    have hlen : c4s.accumulated_buffer.length = 16000 := by
      show (List.replicate 16000 (0 : Int)).length = 16000
      rw [List.length_replicate]
    unfold processAccumulatedAudio
    rw [if_neg (by rw [hlen]; decide)]
    simp only [engineOk1, hlen]
    decide)

/-- C7: a non-empty drain by the threaded worker removes every queued
chunk in one step, appends their samples to the accumulation buffer in
FIFO enqueue order, sets the owning chunk id to the last drained chunk's
id, and any result the ensuing pass pushes carries that id as its
`chunk_id`. -/
theorem C7_drain_all (engine : Engine α) (s : ModelState α) (c : AudioChunk α)
    (res : TranscriptionResult) (h : s.input_queue.getLast? = some c) :
    (workerDrain s).accumulated_buffer
        = s.accumulated_buffer ++ (s.input_queue.map AudioChunk.data).flatten ∧
    (workerDrain s).input_queue = [] ∧
    (workerDrain s).current_chunk_id = c.id ∧
    ((workerIteration engine s).2 = some res → res.chunk_id = c.id) := by
  have hne : s.input_queue.isEmpty = false := by
    cases hq : s.input_queue with
    | nil => rw [hq] at h; cases h
    | cons a t => rfl
  have hne' : ¬(s.input_queue.isEmpty = true) := by
    rw [hne]; exact Bool.false_ne_true
  have hid : (workerDrain s).current_chunk_id = c.id := by
    unfold workerDrain
    rw [if_neg hne']
    show (drainLoop s.input_queue [] 0).2 = c.id
    exact drainLoop_last s.input_queue c [] 0 h
  refine ⟨workerDrain_buffer s hne, ?_, hid, ?_⟩
  · unfold workerDrain
    rw [if_neg hne']
  · intro hres
    unfold workerIteration at hres
    rw [if_neg hne'] at hres
    have hp := processAccumulatedAudio_push engine false (workerDrain s) res hres
    exact hp.1.trans hid

/-- Witness for C7: draining the single 16000-sample chunk with id 5 sets
the owning id to 5 and the pushed result carries `chunk_id = 5`. -/
theorem C7_drain_all_witness :
    (workerDrain c7p).current_chunk_id = 5 ∧ c7res.chunk_id = 5 := by
  have hres : (workerIteration engineOk1 c7p).2 = some c7res := by
    have hlen : (workerDrain c7p).accumulated_buffer.length = 16000 := by
      show (List.replicate 16000 (0 : Int)).length = 16000
      rw [List.length_replicate]
    unfold workerIteration
    rw [if_neg (by decide)]
    unfold processAccumulatedAudio
    rw [if_neg (by rw [hlen]; decide)]
    simp only [engineOk1, hlen]
    decide
  exact ⟨(C7_drain_all engineOk1 c7p { data := List.replicate 16000 0, id := 5 } c7res rfl).2.2.1,
    (C7_drain_all engineOk1 c7p { data := List.replicate 16000 0, id := 5 } c7res rfl).2.2.2 hres⟩

/-- C8: an engine call that throws is caught: the pass pushes nothing and
leaves the result queue untouched; a worker run with an always-throwing
engine still processes every step and merely produces no results (a bad
inference never terminates the loop); engine construction failure
prevents the loop from running at all, while successful construction
always runs the whole loop. -/
theorem C8_failure_handling (force : Bool) (s : ModelState α)
    (ops : List (WorkerOp α)) (eng : Engine α) :
    (processAccumulatedAudio (fun _ => Except.error ()) force s).2 = none ∧
    (processAccumulatedAudio (fun _ => Except.error ()) force s).1.result_queue
      = s.result_queue ∧
    (runWorkerSteps (fun _ => Except.error ()) ops s).2 = [] ∧
    runWorker (Except.error ()) ops s = Except.error () ∧
    runWorker (Except.ok eng) ops s = Except.ok (runWorkerSteps eng ops s) := by
  refine ⟨?_, ?_, ?_, rfl, rfl⟩
  · unfold processAccumulatedAudio
    by_cases h0 : s.accumulated_buffer.length = 0 ∨ s.accumulated_buffer.length < 16000
    · rw [if_pos h0]
    · rw [if_neg h0]
      simp
  · unfold processAccumulatedAudio
    by_cases h0 : s.accumulated_buffer.length = 0 ∨ s.accumulated_buffer.length < 16000
    · rw [if_pos h0]
    · rw [if_neg h0]
      by_cases hc : (force = true) ∨ s.accumulated_buffer.length ≥ s.max_samples
      · simp only [if_pos hc]
        simp
      · simp only [if_neg hc]
        simp
  · induction ops generalizing s with
    | nil => rfl
    | cons op rest ih =>
      unfold runWorkerSteps
      simp [applyOp_error_none, ih]

/-- C5: each worker-visible step either clears the accumulation buffer or
leaves its length no smaller (monotonically non-decreasing between
clears); a clear performed by a processing pass — whether or not
inference then succeeds and pushes anything — happens only on a
final-flagged pass: any `processAccumulatedAudio` clear requires the pass
to be forced or the buffer to have reached `max_samples` (the "result
marked final about to be produced"), a clear by a worker iteration
requires the drained window to have reached `max_samples`, and any result
such a clearing step does push is marked final; the unconditional clear
in `stop()` leaves the buffer empty. -/
theorem C5_buffer_policy (engine : Engine α) (op : WorkerOp α) (s : ModelState α)
    (res : TranscriptionResult) (force : Bool) :
    ((applyOp engine op s).1.accumulated_buffer = [] ∨
      s.accumulated_buffer.length ≤ (applyOp engine op s).1.accumulated_buffer.length) ∧
    ((processAccumulatedAudio engine force s).1.accumulated_buffer = [] →
      s.accumulated_buffer ≠ [] →
      force = true ∨ s.max_samples ≤ s.accumulated_buffer.length) ∧
    ((applyOp engine WorkerOp.iterate s).1.accumulated_buffer = [] →
      s.accumulated_buffer ≠ [] →
      s.max_samples ≤ (workerDrain s).accumulated_buffer.length) ∧
    ((applyOp engine op s).1.accumulated_buffer = [] → s.accumulated_buffer ≠ [] →
      op ≠ .stopClear → (applyOp engine op s).2 = some res →
      TranscriptionResult.is_partial res = false) ∧
    (applyOp engine .stopClear s).1.accumulated_buffer = [] := by
  refine ⟨?_, ?_, ?_, ?_, rfl⟩
  · cases op with
    | enqueue audio => exact Or.inr (Nat.le_refl _)
    | stopClear => exact Or.inl rfl
    | flushFinal =>
      rcases processAccumulatedAudio_buffer engine true s with hb | ⟨hb, -⟩
      · exact Or.inr (Nat.le_of_eq (congrArg List.length hb).symm)
      · exact Or.inl hb
    | iterate =>
      have ha : applyOp engine WorkerOp.iterate s = workerIteration engine s := rfl
      rw [ha]
      unfold workerIteration
      by_cases hq : s.input_queue.isEmpty = true
      · rw [if_pos hq]
        exact Or.inr (Nat.le_refl _)
      · rw [if_neg hq]
        have hq' : s.input_queue.isEmpty = false := by
          cases h : s.input_queue.isEmpty
          · rfl
          · exact absurd h hq
        rcases processAccumulatedAudio_buffer engine false (workerDrain s) with hb | ⟨hb, -⟩
        · refine Or.inr ?_
          rw [hb, workerDrain_buffer s hq', List.length_append]
          exact Nat.le_add_right _ _
        · exact Or.inl hb
  · intro hb hne
    rcases processAccumulatedAudio_buffer engine force s with h | ⟨-, hc⟩
    · rw [hb] at h
      exact absurd h.symm hne
    · exact hc
  · intro hb hne
    have ha : applyOp engine WorkerOp.iterate s = workerIteration engine s := rfl
    rw [ha] at hb
    unfold workerIteration at hb
    by_cases hq : s.input_queue.isEmpty = true
    · rw [if_pos hq] at hb
      exact absurd hb hne
    · rw [if_neg hq] at hb
      have hq' : s.input_queue.isEmpty = false := by
        cases h : s.input_queue.isEmpty
        · rfl
        · exact absurd h hq
      rcases processAccumulatedAudio_buffer engine false (workerDrain s) with h | ⟨-, hc⟩
      · rw [hb] at h
        rw [workerDrain_buffer s hq'] at h
        rcases List.append_eq_nil.mp h.symm with ⟨h1, -⟩
        exact absurd h1 hne
      · rcases hc with hc | hc
        · cases hc
        · rw [workerDrain_max s] at hc
          exact hc
  · cases op with
    | enqueue audio =>
      intro _ _ _ hres
      exact Option.noConfusion hres
    | stopClear =>
      intro _ _ hop _
      exact absurd rfl hop
    | flushFinal =>
      intro _ _ _ hres
      have hp := processAccumulatedAudio_push engine true s res hres
      rw [hp.2.1]
      rfl
    | iterate =>
      intro hb hne _ hres
      have ha : applyOp engine WorkerOp.iterate s = workerIteration engine s := rfl
      rw [ha] at hb hres
      unfold workerIteration at hb hres
      by_cases hq : s.input_queue.isEmpty = true
      · rw [if_pos hq] at hres
        exact Option.noConfusion hres
      · rw [if_neg hq] at hb hres
        have hp := processAccumulatedAudio_push engine false (workerDrain s) res hres
        rcases processAccumulatedAudio_buffer engine false (workerDrain s) with hb2 | ⟨-, hc⟩
        · exfalso
          rw [hb] at hb2
          have h16 := hp.2.2
          rw [← hb2] at h16
          simp at h16
        · rcases hc with hc | hc
          · cases hc
          · rw [hp.2.1]
            simp [hc]

/-- Witness for C5: on `c5it` (a 16000-sample buffer with `max_samples =
16000` and one queued chunk) the forced pass clears only because it is
forced, the iteration's clear certifies that the drained window reached
`max_samples`, the pushed result is marked final, and the `stop()` clear
empties the buffer — with every hypothesis of the theorem discharged
concretely. -/
theorem C5_buffer_policy_witness :
    (true = true ∨ c5it.max_samples ≤ c5it.accumulated_buffer.length) ∧
    c5it.max_samples ≤ (workerDrain c5it).accumulated_buffer.length ∧
    TranscriptionResult.is_partial c5res = false ∧
    (applyOp engineOk1 .stopClear c5it).1.accumulated_buffer = [] := by
  have hlen0 : c5it.accumulated_buffer.length = 16000 := by
    show (List.replicate 16000 (0 : Int)).length = 16000
    rw [List.length_replicate]
  have hlen : (workerDrain c5it).accumulated_buffer.length = 16001 := by
    show (List.replicate 16000 (0 : Int) ++ ([] ++ [1])).length = 16001
    rw [List.length_append, List.length_replicate]
    rfl
  have hne : c5it.accumulated_buffer ≠ [] := by
    intro hcon
    rw [hcon] at hlen0
    exact absurd hlen0 (by decide)
  have haF : ∀ (e : Engine Int) (t : ModelState Int),
      applyOp e WorkerOp.flushFinal t = processAccumulatedAudio e true t :=
    fun _ _ => rfl
  have haI : ∀ (e : Engine Int) (t : ModelState Int),
      applyOp e WorkerOp.iterate t = workerIteration e t :=
    fun _ _ => rfl
  have hbufF : (processAccumulatedAudio engineOk1 true c5it).1.accumulated_buffer = [] := by
    unfold processAccumulatedAudio
    rw [if_neg (by rw [hlen0]; decide)]
    simp only [engineOk1, hlen0]
    decide
  have hbufI : (applyOp engineOk1 WorkerOp.iterate c5it).1.accumulated_buffer = [] := by
    rw [haI]
    unfold workerIteration
    rw [if_neg (by decide)]
    unfold processAccumulatedAudio
    rw [if_neg (by rw [hlen]; decide)]
    simp only [engineOk1, hlen]
    decide
  have hres : (applyOp engineOk1 WorkerOp.iterate c5it).2 = some c5res := by
    rw [haI]
    unfold workerIteration
    rw [if_neg (by decide)]
    unfold processAccumulatedAudio
    rw [if_neg (by rw [hlen]; decide)]
    simp only [engineOk1, hlen]
    decide
  refine ⟨?_, ?_, ?_, ?_⟩
  · exact (C5_buffer_policy engineOk1 .iterate c5it c5res true).2.1 hbufF hne
  · exact (C5_buffer_policy engineOk1 .iterate c5it c5res true).2.2.1 hbufI hne
  · exact (C5_buffer_policy engineOk1 .iterate c5it c5res true).2.2.2.1 hbufI hne
      (by decide) hres
  · exact (C5_buffer_policy engineOk1 .iterate c5it c5res true).2.2.2.2

/-- A result whose concatenated segment text trims to the empty string is
skipped by the delivery batch without affecting the rest of the batch. -/
theorem deliverBatch_cons_skip (r : TranscriptionResult)
    (rest : List TranscriptionResult)
    (hskip : trim (concatTexts r.segments) = []) :
    deliverBatch (r :: rest) = deliverBatch rest := by
  unfold deliverBatch
  rw [List.filterMap_cons]
  by_cases hr1 : r.segments.isEmpty = true
  · rw [if_pos hr1]
  · rw [if_neg hr1]
    simp only [hskip]
    rfl

/-- C6: every callback invocation made by the delivery loop carries
segments whose in-order concatenated text trims to a non-empty string —
so the callback is never invoked with empty or whitespace-only text —
and a result skipped for blank text does not abort delivery of the
remaining results in the batch. -/
theorem C6_nonblank_delivery (results rest : List TranscriptionResult)
    (d : Delivery) (r : TranscriptionResult)
    (hd : d ∈ deliverBatch results)
    (hskip : trim (concatTexts r.segments) = []) :
    trim (concatTexts d.segments) ≠ [] ∧
    (concatTexts d.segments).all isWhitespaceChar = false ∧
    deliverBatch (r :: rest) = deliverBatch rest := by
  simp only [deliverBatch, List.mem_filterMap] at hd
  obtain ⟨q, hq, hf⟩ := hd
  by_cases h1 : q.segments.isEmpty = true
  · rw [if_pos h1] at hf
    exact absurd hf (by simp)
  · rw [if_neg h1] at hf
    by_cases h2 : (trim (concatTexts q.segments)).isEmpty = true
    · simp only [if_pos h2] at hf
      exact absurd hf (by simp)
    · simp only [if_neg h2] at hf
      have hdq : d = ⟨q.chunk_id, q.segments, TranscriptionResult.is_partial q⟩ :=
        (Option.some_inj.mp hf).symm
      subst hdq
      have h2' : trim (concatTexts q.segments) ≠ [] := by
        intro hcon
        rw [hcon] at h2
        exact h2 rfl
      refine ⟨h2', ?_, deliverBatch_cons_skip r rest hskip⟩
      cases hall : (concatTexts q.segments).all isWhitespaceChar with
      | false => rfl
      | true => exact absurd ((trim_eq_nil_iff _).mpr hall) h2'

/-- Witness for C6: in the batch `[badResult, goodResult]` the
whitespace-only result is skipped, the visible-text result is delivered,
and its delivered text is non-blank. -/
theorem C6_nonblank_delivery_witness :
    trim (concatTexts goodDelivery.segments) ≠ [] ∧
    (concatTexts goodDelivery.segments).all isWhitespaceChar = false ∧
    deliverBatch (badResult :: [goodResult]) = deliverBatch [goodResult] :=
  C6_nonblank_delivery [badResult, goodResult] [goodResult] goodDelivery badResult
    (by decide) (by decide)

/-- C1: the claim says the delivery loop exits only once shutdown has
been requested *and* the result queue is empty, so that the forced-flush
result pushed by the worker during shutdown is always delivered before
the loop terminates.  Counterexample schedule: the delivery thread is
preempted at the top-of-loop `while (running)` test; `stop()` clears the
flag; the worker pushes its forced-flush result; the delivery thread then
resumes, reads `running == false` and exits with the flush result still
queued and never delivered. -/
theorem C1_counterexample :
    (deliveryRun [.stop, .push flushResult, .dstep, .dstep] deliveryInit).exited
        = some .whileExit ∧
    (deliveryRun [.stop, .push flushResult, .dstep, .dstep] deliveryInit).queueAtExit
        = [flushResult] ∧
    (deliveryRun [.stop, .push flushResult, .dstep, .dstep] deliveryInit).delivered
        = [] :=
  ⟨rfl, rfl, rfl⟩

/-- C1 (amended): the delivery loop never exits while `running` is still
set — shutdown must have been requested first — and the explicit `break`
fires only with the result queue empty at that instant; but the loop may
also exit at the top-of-loop `while (running)` test with results still
queued, so delivery of the final flush before termination is not
guaranteed. -/
theorem C1_exit_conditions (acts : List DeliveryAction) :
    (DeliveryAction.stop ∉ acts → (deliveryRun acts deliveryInit).exited = none) ∧
    ((deliveryRun acts deliveryInit).exited = some .breakExit →
      (deliveryRun acts deliveryInit).queueAtExit = []) := by
  have hP : ∀ (as : List DeliveryAction) (s : DeliveryState),
      DeliveryAction.stop ∉ as → s.exited = none → s.running = true →
      (deliveryRun as s).exited = none := by
    intro as
    induction as with
    | nil =>
      intro s _ h1 _
      exact h1
    | cons a rest ih =>
      intro s hmem h1 h2
      have hrest : DeliveryAction.stop ∉ rest := fun hx =>
        hmem (List.mem_cons_of_mem _ hx)
      cases a with
      | stop => exact absurd (List.mem_cons_self _ _) hmem
      | push r => exact ih _ hrest h1 h2
      | dstep =>
        have hs : (deliveryStep s).exited = none ∧ (deliveryStep s).running = true := by
          cases hpc : s.pc <;> simp [deliveryStep, h1, h2, hpc]
        exact ih _ hrest hs.1 hs.2
  have hQd : ∀ (s : DeliveryState),
      (s.exited = some ExitPath.breakExit → s.queueAtExit = []) →
      ((deliveryStep s).exited = some ExitPath.breakExit →
        (deliveryStep s).queueAtExit = []) := by
    intro s h
    unfold deliveryStep
    by_cases he : s.exited.isSome = true
    · rw [if_pos he]
      exact h
    · rw [if_neg he]
      cases hpc : s.pc with
      | whileCheck =>
        by_cases hr : s.running = true
        · rw [if_pos hr]
          exact h
        · rw [if_neg hr]
          intro hx
          simp at hx
      | waiting => exact h
      | breakCheck =>
        by_cases hc : (!s.running && s.resultQueue.isEmpty) = true
        · rw [if_pos hc]
          intro _
          show s.resultQueue = []
          cases hq : s.resultQueue with
          | nil => rfl
          | cons x t =>
            rw [hq] at hc
            simp at hc
        · rw [if_neg hc]
          exact h
      | deliver => exact h
  have hQ : ∀ (as : List DeliveryAction) (s : DeliveryState),
      (s.exited = some ExitPath.breakExit → s.queueAtExit = []) →
      ((deliveryRun as s).exited = some ExitPath.breakExit →
        (deliveryRun as s).queueAtExit = []) := by
    intro as
    induction as with
    | nil =>
      intro s h
      exact h
    | cons a rest ih =>
      intro s h
      cases a with
      | stop => exact ih _ h
      | push r => exact ih _ h
      | dstep => exact ih _ (hQd s h)
  exact ⟨fun hmem => hP acts deliveryInit hmem rfl rfl,
    hQ acts deliveryInit (fun hcon => Option.noConfusion hcon)⟩

/-- Witness for C1 (amended): without a `stop` event the loop never
exits, and a schedule that reaches the `break` records an empty queue at
exit. -/
theorem C1_exit_conditions_witness :
    (deliveryRun [DeliveryAction.dstep, .push flushResult, .dstep, .dstep, .dstep]
        deliveryInit).exited = none ∧
    (deliveryRun [DeliveryAction.dstep, .dstep, .stop, .dstep] deliveryInit).queueAtExit
        = [] :=
  ⟨(C1_exit_conditions [DeliveryAction.dstep, .push flushResult, .dstep, .dstep,
      .dstep]).1 (by decide),
   (C1_exit_conditions [DeliveryAction.dstep, .dstep, .stop, .dstep]).2 rfl⟩

end SimplerWhisper
